import Mathlib

/-!
Verification development for the Project Danesh retrieval pipeline
(`src/query_master/rag_pipeline.py`, the `QueryMaster` RAG orchestrator, and the
`KnowledgeGraph` class of `04_query_master.py`).

The Python code is shallowly embedded: external services (Gemini text
generation, embedding + Chroma vector search) are modelled as oracle functions
returning `Except PyErr`, Python `try/except` becomes explicit handling of
`Except`, and Python string/list primitives (`str.split`, `str.strip`,
`int(...)`, negative list indexing) are modelled character-by-character with
their Python semantics.
-/

namespace Danesh

/-- A Python exception as far as the pipeline can observe it. -/
inductive PyErr where
  | valueError
  | keyError (key : String)
  | indexError
  | serviceError (msg : String)
deriving DecidableEq, Repr

/-- `RetrievedDocument`: the dict `{"text": ..., "metadata": ...}` built in
`_search_vector_store`. Metadata is a Python dict of strings, modelled as an
association list with unique keys (first binding wins on lookup). -/
structure Doc where
  text : String
  metadata : List (String × String)
deriving DecidableEq, Repr

/-- Python dict subscript `d[k]`: the bound value, or `KeyError` if absent. -/
def dictGet (d : List (String × String)) (k : String) : Except PyErr String :=
  match d.find? (fun p => p.1 == k) with
  | some p => .ok p.2
  | none => .error (.keyError k)

/-- Python `text.split(',')`: split at every comma, keeping empty segments;
the result is never the empty list (`"".split(',') == [""]`). -/
def pySplitComma : List Char → List (List Char)
  | [] => [[]]
  | c :: cs =>
    match pySplitComma cs with
    | [] => [[]]
    | seg :: rest => if c = ',' then [] :: seg :: rest else (c :: seg) :: rest

/-- Python `str.strip()`: drop leading and trailing whitespace. -/
def pyStrip (s : List Char) : List Char :=
  ((s.dropWhile Char.isWhitespace).reverse.dropWhile Char.isWhitespace).reverse

/-- Decimal value of a digit list (most significant first). -/
def digitsToNat (acc : Nat) : List Char → Nat
  | [] => acc
  | c :: cs => digitsToNat (acc * 10 + (c.toNat - 48)) cs

/-- The digit part of Python `int(s)` after sign removal: at least one decimal
digit and nothing else, otherwise `ValueError`. -/
def pyIntCore (ds : List Char) : Except PyErr Nat :=
  if ds.isEmpty then .error .valueError
  else if ds.all Char.isDigit then .ok (digitsToNat 0 ds) else .error .valueError

/-- Python `int(s)`: ignore surrounding whitespace, accept an optional sign
followed by at least one decimal digit, otherwise raise `ValueError`. -/
def pyIntOfChars (s : List Char) : Except PyErr Int :=
  match pyStrip s with
  | [] => .error .valueError
  | c :: ds =>
    if c = '+' then (pyIntCore ds).map (fun n => (n : Int))
    else if c = '-' then (pyIntCore ds).map (fun n => -(n : Int))
    else (pyIntCore (c :: ds)).map (fun n => (n : Int))

/-- Subscript with an already-normalized (wrap-applied) index. -/
def pyGetAux {α : Type} (l : List α) (j : Int) : Except PyErr α :=
  if 0 ≤ j then
    match l.get? j.toNat with
    | some a => .ok a
    | none => .error .indexError
  else .error .indexError

/-- Python list subscript `l[i]` with an `int` index: a negative index counts
from the end (`l[-1]` is the last element); out of range raises `IndexError`. -/
def pyGet {α : Type} (l : List α) (i : Int) : Except PyErr α :=
  pyGetAux l (if i < 0 then i + (l.length : Int) else i)

/-- `config.VECTOR_SEARCH_TOP_K` (config.py). -/
def VECTOR_SEARCH_TOP_K : Nat := 10

/-- `config.GRAPH_SEARCH_DEPTH` (config.py). -/
def GRAPH_SEARCH_DEPTH : Nat := 2

/-- `config.RERANK_TOP_N` (config.py). -/
def RERANK_TOP_N : Nat := 3

/-- The behaviour of the external services during one query: each call site's
response text (or the document list the vector-search block yields), as a
function of the prompt/search text sent there, or the exception it raises.
`vectorResult` covers the whole `try` block of `_search_vector_store`
(embedding call, Chroma query and result-dict extraction). -/
structure Services where
  hypoResp : String → Except PyErr String
  vectorResult : String → Except PyErr (List Doc)
  rerankResp : String → Except PyErr String
  finalResp : String → Except PyErr String

/-- The HyDE prompt built in `_generate_hypothetical_answer`. -/
def hydePrompt (q : String) : String :=
  "\n        لطفاً به این سوال یک پاسخ جامع و کامل بدهید. این پاسخ برای جستجوی اسناد مرتبط استفاده خواهد شد، بنابراین باید شامل کلمات کلیدی و مفاهیم احتمالی باشد.\n        سوال: " ++ q ++ "\n        "

/-- `QueryMaster._generate_hypothetical_answer`: ask the text model for a
hypothetical answer; on any exception fall back to the original query text. -/
def generateHypotheticalAnswer (s : Services) (queryText : String) : String :=
  match s.hypoResp (hydePrompt queryText) with
  | .ok t => t
  | .error _ => queryText

/-- `QueryMaster._search_vector_store`: embed the search text and query the
collection; on any exception return the empty list. -/
def searchVectorStore (s : Services) (searchText : String) : List Doc :=
  match s.vectorResult searchText with
  | .ok docs => docs
  | .error _ => []

/-- `docs_str` built in `_rerank_documents`:
`"".join(f"Document {i+1}:\n{doc['text']}\n\n" for i, doc in enumerate(docs))`. -/
def docsStr (docs : List Doc) : String :=
  String.join (docs.enum.map
    (fun p => "Document " ++ toString (p.1 + 1) ++ ":\n" ++ p.2.text ++ "\n\n"))

/-- The re-ranking prompt built in `_rerank_documents`. -/
def rerankPrompt (docs : List Doc) (query : String) : String :=
  "From the following documents, identify the top " ++ toString RERANK_TOP_N ++ " that are MOST relevant to the user\x27s question.\n        User Question: \"" ++ query ++ "\"\n        Documents:\n" ++ docsStr docs ++ "\n        Respond with a comma-separated list of the document numbers. Example: \"3,1,5\" "

/-- A Python list comprehension `[f(a) for a in l]` where `f` may raise:
elements are produced left to right and the first exception propagates. -/
def mapME {α β : Type} (f : α → Except PyErr β) : List α → Except PyErr (List β)
  | [] => .ok []
  | a :: as =>
    match f a with
    | .error e => .error e
    | .ok b =>
      match mapME f as with
      | .error e => .error e
      | .ok bs => .ok (b :: bs)

/-- `[int(i.strip()) - 1 for i in response.text.split(',')]`: split the raw
response at commas, parse each stripped segment with `int`, subtract 1; the
first segment that is not an integer literal raises `ValueError`. -/
def parseIndices (respText : String) : Except PyErr (List Int) :=
  mapME (fun seg => (pyIntOfChars (pyStrip seg)).map (fun n => n - 1))
    (pySplitComma respText.data)

/-- `[docs[i] for i in relevant_indices if i < len(docs)]`: keep the indices
below `len(docs)` (no lower bound!) and subscript with Python semantics. -/
def selectDocs (docs : List Doc) (idxs : List Int) : Except PyErr (List Doc) :=
  mapME (fun i => pyGet docs i) (idxs.filter (fun i => i < (docs.length : Int)))

/-- The body of the `try` block of `_rerank_documents`: generation call,
index parsing, document selection; any step may raise. -/
def rerankResultE (s : Services) (docs : List Doc) (query : String) :
    Except PyErr (List Doc) :=
  match s.rerankResp (rerankPrompt docs query) with
  | .error e => .error e
  | .ok respText =>
    match parseIndices respText with
    | .error e => .error e
    | .ok idxs => selectDocs docs idxs

/-- `QueryMaster._rerank_documents`: empty input short-circuits to `[]`;
otherwise run the try block, and on any exception fall back to
`docs[:RERANK_TOP_N]`. -/
def rerankDocuments (s : Services) (docs : List Doc) (query : String) : List Doc :=
  if docs.isEmpty then []
  else
    match rerankResultE s docs query with
    | .ok r => r
    | .error _ => docs.take RERANK_TOP_N

/-- The `networkx` undirected graph loaded from `knowledge_graph.graphml`
(built with `nx.Graph()` in `knowledge_weaver/graph_builder.py`): node labels
are strings; each unordered edge is stored once as an ordered pair. Adjacency
follows edge insertion order. -/
structure Graph where
  nodes : List String
  edges : List (String × String)
deriving Repr

/-- Neighbors of `u` in a `networkx` undirected graph: the other endpoint of
every edge incident to `u`, in edge order. -/
def Graph.neighborsOf (g : Graph) (u : String) : List String :=
  g.edges.filterMap (fun e =>
    if e.1 == u then some e.2 else if e.2 == u then some e.1 else none)

/-- The node-discovery part of `nx.bfs_edges(graph, source, depth_limit)`:
expand the frontier layer by layer (at most `depth` layers), collecting each
newly discovered node once, in breadth-first discovery order. -/
def bfsExpand (g : Graph) : Nat → List String → List String → List String
  | 0, _, _ => []
  | Nat.succ d, frontier, visited =>
    let discovered := frontier.foldl (fun acc u =>
      acc ++ (g.neighborsOf u).filter
        (fun v => !(visited.contains v || acc.contains v))) []
    discovered ++ bfsExpand g d discovered (visited ++ discovered)

/-- `[n[1] for n in nx.bfs_edges(self.graph, source=node, depth_limit=...)]`:
the nodes reachable from `src` within `depthLimit` steps, source excluded, in
BFS discovery order. -/
def bfsRelated (g : Graph) (src : String) (depthLimit : Nat) : List String :=
  bfsExpand g depthLimit [src] [src]

/-- Does `needle` occur at the start of `haystack`? -/
def beginsWith : List Char → List Char → Bool
  | [], _ => true
  | _ :: _, [] => false
  | a :: as, b :: bs => a == b && beginsWith as bs

/-- Python substring containment `needle in haystack` on character lists:
`needle` occurs contiguously somewhere in `haystack`. -/
def subOccurs (needle : List Char) : List Char → Bool
  | [] => beginsWith needle []
  | h :: t => beginsWith needle (h :: t) || subOccurs needle t

/-- Python `str.lower()` character by character. -/
def lowerChars (l : List Char) : List Char :=
  l.map Char.toLower

/-- The node-matching scan of `_search_knowledge_graph`: the graph nodes whose
label occurs case-insensitively as a substring of some retrieved text
(`if node.lower() in doc['text'].lower()`). The Python code collects matches
into a `set`; the model keeps them in graph-node order. -/
def foundNodes (g : Graph) (retrievedDocs : List Doc) : List String :=
  g.nodes.filter (fun node =>
    retrievedDocs.any (fun d => subOccurs (lowerChars node.data) (lowerChars d.text.data)))

/-- Python `', '.join(items)`. -/
def joinCommaSpace : List String → String
  | [] => ""
  | [x] => x
  | x :: xs => x ++ ", " ++ joinCommaSpace xs

/-- One line of the graph-context summary:
`f"- For topic '{node}', related concepts are: {', '.join(related_items) if related_items else 'None'}\n"`. -/
def nodeLine (g : Graph) (node : String) : String :=
  let relatedItems := bfsRelated g node GRAPH_SEARCH_DEPTH
  "- For topic \x27" ++ node ++ "\x27, related concepts are: " ++
    (if relatedItems.isEmpty then "None" else joinCommaSpace relatedItems) ++ "\n"

/-- `QueryMaster._search_knowledge_graph`: match nodes against retrieved texts;
with no match return the fixed placeholder, otherwise concatenate one line per
matched node. -/
def searchKnowledgeGraph (g : Graph) (retrievedDocs : List Doc) : String :=
  let found := foundNodes g retrievedDocs
  if found.isEmpty then "No additional context found."
  else found.foldl (fun acc node => acc ++ nodeLine g node) ""

/-- The accumulating join behind `vector_context_str`: documents are rendered
left to right, each appending `f"Source: {doc['metadata']['source']}\nContent: {doc['text']}\n\n"`,
and the first missing `'source'` key raises `KeyError`. -/
def vcFold : List Doc → String → Except PyErr String
  | [], acc => .ok acc
  | d :: ds, acc =>
    match dictGet d.metadata "source" with
    | .error e => .error e
    | .ok src => vcFold ds (acc ++ "Source: " ++ src ++ "\nContent: " ++ d.text ++ "\n\n")

/-- `vector_context_str`: the generator-expression join in `answer_question`.
This join is NOT inside any `try` of `answer_question`, so its `KeyError`
escapes to the caller. -/
def buildVectorContext (docs : List Doc) : Except PyErr String :=
  vcFold docs ""

/-- One segment of the RAG prompt template: a literal piece, or one of its
three substitution points. -/
inductive Seg where
  | lit (s : String)
  | vectorContext
  | graphContext
  | userQuestion
deriving DecidableEq, Repr

/-- Modelled from the spec: the template file `prompts/rag_prompt.txt` read by
`_load_prompt_template` is not under `src/`; per the spec's prompt template
contract it "must contain three substitution points — retrieved-document
context, graph context, and the original question". A template is a list of
literal segments and those three placeholders. -/
def Template : Type := List Seg

/-- `self.rag_prompt_template.format(vector_context=..., graph_context=...,
user_question=...)` on a template made of literals and the three placeholders:
substitute each placeholder. -/
def formatTemplate (t : Template) (vc gc uq : String) : String :=
  String.join (t.map (fun seg =>
    match seg with
    | .lit s => s
    | .vectorContext => vc
    | .graphContext => gc
    | .userQuestion => uq))

/-- The fixed "not found" message returned when vector search yields nothing. -/
def NOT_FOUND_MSG : String :=
  "متاسفانه اطلاعات مرتبطی برای پاسخ به سوال شما در منابع موجود یافت نشد."

/-- The message returned when re-ranking leaves no documents. -/
def NO_PRECISE_MSG : String :=
  "پس از بررسی، اطلاعات دقیقی برای پاسخ به سوال شما یافت نشد."

/-- The apology message returned when the final generation call raises. -/
def GEN_ERROR_MSG : String :=
  "خطایی در هنگام تولید پاسخ رخ داد. لطفاً دوباره تلاش کنید."

/-- An external call site of the pipeline, recorded in a per-query trace:
the HyDE generation call, the embedding+vector-search block, the re-ranking
generation call, the knowledge-graph lookup, the final generation call. -/
inductive Call where
  | genHypo
  | embedSearch
  | rerankGen
  | graphLookup
  | finalGen
deriving DecidableEq, Repr

/-- `QueryMaster.answer_question`, instrumented with the list of pipeline
steps it performs (in order). The returned `Except` is `.error` exactly when
an exception escapes to the caller — which happens only at the uncaught
`doc['metadata']['source']` lookup of context assembly. -/
def answerQuestionT (s : Services) (g : Graph) (tmpl : Template)
    (userQuestion : String) : Except PyErr String × List Call :=
  let hypotheticalAnswer := generateHypotheticalAnswer s userQuestion
  let initialDocs := searchVectorStore s hypotheticalAnswer
  if initialDocs.isEmpty then (.ok NOT_FOUND_MSG, [.genHypo, .embedSearch])
  else
    let relevantDocs := rerankDocuments s initialDocs userQuestion
    if relevantDocs.isEmpty then
      (.ok NO_PRECISE_MSG, [.genHypo, .embedSearch, .rerankGen])
    else
      match buildVectorContext relevantDocs with
      | .error e => (.error e, [.genHypo, .embedSearch, .rerankGen])
      | .ok vectorContextStr =>
        let graphContextStr := searchKnowledgeGraph g relevantDocs
        let finalPrompt := formatTemplate tmpl vectorContextStr graphContextStr userQuestion
        match s.finalResp finalPrompt with
        | .ok t =>
          (.ok t, [.genHypo, .embedSearch, .rerankGen, .graphLookup, .finalGen])
        | .error _ =>
          (.ok GEN_ERROR_MSG, [.genHypo, .embedSearch, .rerankGen, .graphLookup, .finalGen])

/-- `QueryMaster.answer_question`: the value returned to the caller (or the
exception escaping to it). -/
def answerQuestion (s : Services) (g : Graph) (tmpl : Template)
    (q : String) : Except PyErr String :=
  (answerQuestionT s g tmpl q).1

/-- The document list that reaches context assembly (steps 1–3 of
`answer_question`): empty when the pipeline short-circuits earlier. -/
def relevantDocsOf (s : Services) (q : String) : List Doc :=
  let initialDocs := searchVectorStore s (generateHypotheticalAnswer s q)
  if initialDocs.isEmpty then [] else rerankDocuments s initialDocs q

/-- The `final_prompt` assembled in `answer_question` (or the exception that
context assembly raises), given that the pipeline reaches step 4. -/
def finalPromptOf (s : Services) (g : Graph) (tmpl : Template)
    (q : String) : Except PyErr String :=
  match buildVectorContext (relevantDocsOf s q) with
  | .error e => .error e
  | .ok vc =>
    .ok (formatTemplate tmpl vc (searchKnowledgeGraph g (relevantDocsOf s q)) q)

/-- `True` exactly on `Except.error`. -/
def isErr {ε α : Type} : Except ε α → Bool
  | .error _ => true
  | .ok _ => false

/-- `EntityNode` of `04_query_master.py`: a frozen dataclass with entity text
and entity type; equality is componentwise. -/
structure EntityNode where
  text : String
  type : String
deriving DecidableEq, Repr

/-- The `KnowledgeGraph` class of `04_query_master.py`: a node set and an edge
set of ordered node pairs. Python `set`s have an unspecified iteration order;
the model fixes insertion-order lists. -/
structure KnowledgeGraph where
  nodes : List EntityNode
  edges : List (EntityNode × EntityNode)
deriving Repr

/-- The `_adjacency_list` entry for `n`: start from the empty set for each
node of the graph, then for every edge `(n1, n2)` add `n2` to `n1`'s entry and
`n1` to `n2`'s entry (edges are treated as undirected). A node outside the
node set has no entry (`dict.get` falls back to the empty set). -/
def KnowledgeGraph.adjacency (kg : KnowledgeGraph) (n : EntityNode) :
    List EntityNode :=
  if kg.nodes.contains n then
    kg.edges.foldl (fun acc e =>
      acc ++ (if e.1 == n then [e.2] else []) ++ (if e.2 == n then [e.1] else [])) []
  else []

/-- `KnowledgeGraph.find_neighbors`: find the first node whose `text` equals
`node_text` (in node iteration order) and return its adjacency entry; with no
matching node return the empty set. -/
def KnowledgeGraph.findNeighbors (kg : KnowledgeGraph) (nodeText : String) :
    List EntityNode :=
  match kg.nodes.find? (fun n => n.text == nodeText) with
  | some target => kg.adjacency target
  | none => []

/-- Step 6 of `answer_question`: the final generation call wrapped in
`try/except`, degrading to the fixed apology message. -/
def finalStep (s : Services) (finalPrompt : String) : Except PyErr String :=
  match s.finalResp finalPrompt with
  | .ok t => .ok t
  | .error _ => .ok GEN_ERROR_MSG

/-- Number of newline characters in a string (for counting summary lines). -/
def newlineCount (s : String) : Nat :=
  s.data.countP (fun c => c == '\n')

/-- The index selection as claim C4 states it (following the spec's words, for
comparison with `selectDocs`): keep exactly the parsed indices lying in
`[0, candidate_count)`. -/
def specInRangeIndices (count : Nat) (idxs : List Int) : List Int :=
  idxs.filter (fun i => decide (0 ≤ i) && decide (i < (count : Int)))

/-- Claim C8 as stated: whenever `answer_question` reaches context assembly,
all three template substitutions are non-empty strings. -/
def contextCompletenessClaim : Prop :=
  ∀ (s : Services) (g : Graph) (q : String) (vc : String),
    relevantDocsOf s q ≠ [] →
    buildVectorContext (relevantDocsOf s q) = .ok vc →
    vc ≠ "" ∧ searchKnowledgeGraph g (relevantDocsOf s q) ≠ "" ∧ q ≠ ""

/-! ### Concrete instances used in counterexamples and witnesses -/

/-- A retrieved document with a well-formed metadata dict. -/
def mkDoc (n : Nat) : Doc :=
  ⟨"text" ++ toString n, [("source", "src" ++ toString n)]⟩

/-- Two candidate documents. -/
def docsTwo : List Doc := [mkDoc 0, mkDoc 1]

/-- Four candidate documents. -/
def docsFour : List Doc := [mkDoc 0, mkDoc 1, mkDoc 2, mkDoc 3]

/-- Ten candidate documents, as in the spec's 10-candidate scenario. -/
def docsTen : List Doc :=
  [mkDoc 0, mkDoc 1, mkDoc 2, mkDoc 3, mkDoc 4,
   mkDoc 5, mkDoc 6, mkDoc 7, mkDoc 8, mkDoc 9]

/-- Services where every call succeeds, the vector search returns `docs` and
the re-ranking call answers `resp`. -/
def okServices (docs : List Doc) (resp : String) : Services :=
  { hypoResp := fun _ => .ok "hypothetical answer"
    vectorResult := fun _ => .ok docs
    rerankResp := fun _ => .ok resp
    finalResp := fun _ => .ok "final answer" }

/-- Services where every external call raises. -/
def failServices : Services :=
  { hypoResp := fun _ => .error (.serviceError "hypo down")
    vectorResult := fun _ => .error (.serviceError "search down")
    rerankResp := fun _ => .error (.serviceError "rerank down")
    finalResp := fun _ => .error (.serviceError "final down") }

/-- A retrieved document whose metadata has no `source` key. -/
def noSourceDoc : Doc := ⟨"plain text", [("page", "3")]⟩

/-- Services that retrieve only `noSourceDoc` and re-rank it first. -/
def noSourceServices : Services := okServices [noSourceDoc] "1"

/-- A graph with no nodes. -/
def gEmpty : Graph := ⟨[], []⟩

/-- The spec's 2-node, 0-edge example graph. -/
def gTwoMinistries : Graph :=
  ⟨["Ministry of Health", "Ministry of Science"], []⟩

/-- A retrieved document whose text contains both ministry names
(with different letter case, to exercise the case-insensitive match). -/
def docBothMinistries : Doc :=
  ⟨"The ministry of health and the MINISTRY OF SCIENCE cooperate.", [("source", "d")]⟩

/-- A template with the three placeholders and literal glue. -/
def tmplStd : Template :=
  [Seg.lit "Context:\n", Seg.vectorContext, Seg.lit "\nGraph:\n",
   Seg.graphContext, Seg.lit "\nQuestion:\n", Seg.userQuestion]

/-- Entity with text `a` and type `PER`. -/
def enA1 : EntityNode := ⟨"a", "PER"⟩

/-- A second, distinct entity with the same text `a` but type `ORG`. -/
def enA2 : EntityNode := ⟨"a", "ORG"⟩

/-- Entity with text `b`. -/
def enB : EntityNode := ⟨"b", "PER"⟩

/-- A knowledge graph whose node set holds two distinct nodes with the same
text; the single edge ends in the second of them. -/
def kgBad : KnowledgeGraph := ⟨[enA1, enA2, enB], [(enA2, enB)]⟩

/-- A knowledge graph with textually distinct nodes and one edge. -/
def kgGood : KnowledgeGraph := ⟨[enA1, enB], [(enA1, enB)]⟩

/-! ### Theorems -/

/-! #### Shared lemmas -/

/-- If the vector-search block raises, `_search_vector_store` returns `[]`. -/
theorem searchVectorStore_of_isErr (s : Services) (x : String)
    (h : isErr (s.vectorResult x) = true) : searchVectorStore s x = [] := by
  unfold searchVectorStore
  cases hv : s.vectorResult x with
  | ok docs => rw [hv] at h; simp [isErr] at h
  | error e => rfl

/-- Empty retrieval short-circuits the pipeline after the search step. -/
theorem answer_empty_search (s : Services) (g : Graph) (tmpl : Template)
    (q : String)
    (h : searchVectorStore s (generateHypotheticalAnswer s q) = []) :
    answerQuestionT s g tmpl q = (.ok NOT_FOUND_MSG, [.genHypo, .embedSearch]) := by
  simp only [answerQuestionT, h, List.isEmpty_nil, if_true]

/-- A successful `pyGetAux` returns an element of the list. -/
theorem pyGetAux_ok_mem {α : Type} {l : List α} {j : Int} {a : α}
    (h : pyGetAux l j = .ok a) : a ∈ l := by
  unfold pyGetAux at h
  split at h
  · split at h
    · next b heq => cases h; exact List.get?_mem heq
    · cases h
  · cases h

/-- A successful `pyGet` returns an element of the list. -/
theorem pyGet_ok_mem {α : Type} {l : List α} {i : Int} {a : α}
    (h : pyGet l i = .ok a) : a ∈ l :=
  pyGetAux_ok_mem h

/-- Every element of a successful `mapME` run satisfies any property that `f`
guarantees of its results. -/
theorem mapME_ok_mem {α β : Type} {f : α → Except PyErr β} {P : β → Prop}
    (hf : ∀ a b, f a = .ok b → P b) :
    ∀ {l : List α} {r : List β}, mapME f l = .ok r → ∀ b ∈ r, P b := by
  intro l
  induction l with
  | nil => intro r h b hb; cases h; cases hb
  | cons a as ih =>
    intro r h b hb
    unfold mapME at h
    cases hfa : f a with
    | error e => rw [hfa] at h; cases h
    | ok b0 =>
      rw [hfa] at h
      cases hrest : mapME f as with
      | error e => rw [hrest] at h; cases h
      | ok bs =>
        rw [hrest] at h
        cases h
        rcases List.mem_cons.mp hb with rfl | hb2
        · exact hf a b hfa
        · exact ih hrest b hb2

/-- A successful `mapME` run has one output per input. -/
theorem mapME_ok_length {α β : Type} {f : α → Except PyErr β} :
    ∀ {l : List α} {r : List β}, mapME f l = .ok r → r.length = l.length := by
  intro l
  induction l with
  | nil => intro r h; cases h; rfl
  | cons a as ih =>
    intro r h
    unfold mapME at h
    cases hfa : f a with
    | error e => rw [hfa] at h; cases h
    | ok b0 =>
      rw [hfa] at h
      cases hrest : mapME f as with
      | error e => rw [hrest] at h; cases h
      | ok bs =>
        rw [hrest] at h
        cases h
        simp [ih hrest]

/-- Documents selected by `selectDocs` come from the candidate list. -/
theorem selectDocs_ok_mem {docs : List Doc} {idxs : List Int} {sel : List Doc}
    (h : selectDocs docs idxs = .ok sel) : ∀ d ∈ sel, d ∈ docs :=
  mapME_ok_mem (fun _ _ hget => pyGet_ok_mem hget) h

/-- Whatever `_rerank_documents` returns is drawn from its input list. -/
theorem rerankDocuments_mem (s : Services) (docs : List Doc) (q : String) :
    ∀ d ∈ rerankDocuments s docs q, d ∈ docs := by
  intro d hd
  unfold rerankDocuments at hd
  split at hd
  · cases hd
  · split at hd
    · next r hr =>
      unfold rerankResultE at hr
      cases hresp : s.rerankResp (rerankPrompt docs q) with
      | error e => simp only [hresp] at hr; cases hr
      | ok t =>
        simp only [hresp] at hr
        cases hidx : parseIndices t with
        | error e => simp only [hidx] at hr; cases hr
        | ok idxs =>
          simp only [hidx] at hr
          exact selectDocs_ok_mem hr d hd
    · exact List.take_subset _ _ hd

/-- Unfolding `pySplitComma` on a cons when the tail's split is known. -/
theorem pySplitComma_cons (c : Char) (cs : List Char) {seg : List Char}
    {rest : List (List Char)} (h : pySplitComma cs = seg :: rest) :
    pySplitComma (c :: cs) =
      if c = ',' then [] :: seg :: rest else (c :: seg) :: rest := by
  unfold pySplitComma
  rw [h]

/-- Python `split` never returns an empty list of segments. -/
theorem pySplitComma_ne_nil (l : List Char) : pySplitComma l ≠ [] := by
  induction l with
  | nil => simp [pySplitComma]
  | cons c cs ih =>
    cases h : pySplitComma cs with
    | nil => exact absurd h ih
    | cons seg rest =>
      rw [pySplitComma_cons c cs h]
      by_cases hc : c = ',' <;> simp [hc]

/-- Every character of a `split` segment is a character of the input. -/
theorem pySplitComma_subset :
    ∀ {l seg : List Char}, seg ∈ pySplitComma l → ∀ c ∈ seg, c ∈ l := by
  intro l
  induction l with
  | nil =>
    intro seg hseg c hc
    simp [pySplitComma] at hseg
    subst hseg; cases hc
  | cons x xs ih =>
    intro seg hseg c hc
    cases h : pySplitComma xs with
    | nil => exact absurd h (pySplitComma_ne_nil xs)
    | cons seg0 rest =>
      rw [pySplitComma_cons x xs h] at hseg
      by_cases hx : x = ','
      · rw [if_pos hx] at hseg
        rcases List.mem_cons.mp hseg with rfl | h2
        · cases hc
        · exact List.mem_cons_of_mem x (ih (by rw [h]; exact h2) c hc)
      · rw [if_neg hx] at hseg
        rcases List.mem_cons.mp hseg with rfl | h2
        · rcases List.mem_cons.mp hc with rfl | hc2
          · exact List.mem_cons_self _ _
          · exact List.mem_cons_of_mem x
              (ih (by rw [h]; exact List.mem_cons_self seg0 rest) c hc2)
        · exact List.mem_cons_of_mem x
            (ih (by rw [h]; exact List.mem_cons_of_mem seg0 h2) c hc)

/-- Membership survives `dropWhile`. -/
theorem mem_dropWhile {p : Char → Bool} :
    ∀ {l : List Char} {c : Char}, c ∈ l.dropWhile p → c ∈ l := by
  intro l
  induction l with
  | nil => intro c h; exact h
  | cons x xs ih =>
    intro c h
    rw [List.dropWhile_cons] at h
    split at h
    · exact List.mem_cons_of_mem x (ih h)
    · exact h

/-- Every character remaining after `strip` is a character of the input. -/
theorem pyStrip_subset : ∀ {l : List Char}, ∀ c ∈ pyStrip l, c ∈ l := by
  intro l c hc
  unfold pyStrip at hc
  exact mem_dropWhile (List.mem_reverse.mp (mem_dropWhile (List.mem_reverse.mp hc)))

/-- The digit part of `int` fails when no character is a decimal digit. -/
theorem pyIntCore_noDigit {ds : List Char} (h : ∀ c ∈ ds, c.isDigit = false) :
    pyIntCore ds = .error .valueError := by
  cases ds with
  | nil => rfl
  | cons x xs =>
    have hx : x.isDigit = false := h x (List.mem_cons_self _ _)
    simp [pyIntCore, List.all_cons, hx]

/-- Python `int(s)` raises `ValueError` when `s` holds no decimal digit. -/
theorem pyIntOfChars_noDigit {l : List Char} (h : ∀ c ∈ l, c.isDigit = false) :
    pyIntOfChars l = .error .valueError := by
  have hs : ∀ c ∈ pyStrip l, c.isDigit = false := fun c hc => h c (pyStrip_subset c hc)
  unfold pyIntOfChars
  cases hst : pyStrip l with
  | nil => rfl
  | cons c ds =>
    dsimp only
    have hds : ∀ x ∈ ds, x.isDigit = false := fun x hx =>
      hs x (by rw [hst]; exact List.mem_cons_of_mem c hx)
    have hcds : ∀ x ∈ c :: ds, x.isDigit = false := fun x hx =>
      hs x (by rw [hst]; exact hx)
    by_cases h1 : c = '+'
    · rw [if_pos h1, pyIntCore_noDigit hds]; rfl
    · rw [if_neg h1]
      by_cases h2 : c = '-'
      · rw [if_pos h2, pyIntCore_noDigit hds]; rfl
      · rw [if_neg h2, pyIntCore_noDigit hcds]; rfl

/-- Index parsing raises `ValueError` whenever the raw re-rank response
contains no decimal digit at all. -/
theorem parseIndices_noDigit {t : String}
    (h : ∀ c ∈ t.data, c.isDigit = false) :
    parseIndices t = .error .valueError := by
  unfold parseIndices
  cases hsp : pySplitComma t.data with
  | nil => exact absurd hsp (pySplitComma_ne_nil _)
  | cons seg rest =>
    have hseg : ∀ c ∈ pyStrip seg, c.isDigit = false := fun c hc =>
      h c (pySplitComma_subset (by rw [hsp]; exact List.mem_cons_self _ _) c
        (pyStrip_subset c hc))
    have herr : pyIntOfChars (pyStrip seg) = .error .valueError :=
      pyIntOfChars_noDigit hseg
    simp [mapME, herr, Except.map]

/-- Context assembly succeeds whenever every document's metadata has a
`source` key. -/
theorem vcFold_ok_of_source :
    ∀ {docs : List Doc},
      (∀ d ∈ docs, (d.metadata.find? (fun p => p.1 == "source")).isSome = true) →
      ∀ acc, ∃ vc, vcFold docs acc = .ok vc := by
  intro docs
  induction docs with
  | nil => intro _ acc; exact ⟨acc, rfl⟩
  | cons d ds ih =>
    intro h acc
    have hd := h d (List.mem_cons_self _ _)
    cases hp : d.metadata.find? (fun p => p.1 == "source") with
    | none => rw [hp] at hd; cases hd
    | some p =>
      have hget : dictGet d.metadata "source" = .ok p.2 := by
        unfold dictGet; rw [hp]
      unfold vcFold
      rw [hget]
      exact ih (fun x hx => h x (List.mem_cons_of_mem d hx)) _

/-- Context assembly strictly lengthens the accumulator on every document. -/
theorem vcFold_ok_length :
    ∀ {docs : List Doc} {acc vc : String}, vcFold docs acc = .ok vc →
      acc.length ≤ vc.length ∧ (docs ≠ [] → acc.length < vc.length) := by
  intro docs
  induction docs with
  | nil =>
    intro acc vc h
    cases h
    exact ⟨le_refl _, fun hne => absurd rfl hne⟩
  | cons d ds ih =>
    intro acc vc h
    unfold vcFold at h
    cases hget : dictGet d.metadata "source" with
    | error e => rw [hget] at h; cases h
    | ok src =>
      rw [hget] at h
      have hrec := ih h
      have hgrow : acc.length <
          (acc ++ "Source: " ++ src ++ "\nContent: " ++ d.text ++ "\n\n").length := by
        simp only [String.length_append]
        have : 0 < "Source: ".length := by decide
        omega
      exact ⟨le_of_lt (lt_of_lt_of_le hgrow hrec.1),
        fun _ => lt_of_lt_of_le hgrow hrec.1⟩

/-- A string of positive length is not the empty string. -/
theorem ne_empty_of_length_pos {s : String} (h : 0 < s.length) : s ≠ "" := by
  intro he
  cases he
  exact absurd h (by decide)

/-- C1 (counterexample): with services that succeed but retrieve a document
whose metadata dict has no `source` key, `answer_question` raises `KeyError`
to the caller — the `doc['metadata']['source']` lookup of context assembly is
outside every `try` block. -/
theorem C1_counterexample :
    answerQuestion noSourceServices gEmpty tmplStd "q" =
      .error (.keyError "source") := rfl

/-- C3: if the vector search yields an empty candidate list, `answer_question`
performs no re-ranking, no graph lookup and no final-generation call (the
trace stops at the HyDE call and the embedding+search block) and returns the
fixed "not found" message. -/
theorem C3_empty_retrieval_short_circuit (s : Services) (g : Graph)
    (tmpl : Template) (q : String)
    (h : searchVectorStore s (generateHypotheticalAnswer s q) = []) :
    answerQuestionT s g tmpl q = (.ok NOT_FOUND_MSG, [.genHypo, .embedSearch]) :=
  answer_empty_search s g tmpl q h

/-- Witness for C3: services whose vector-search block raises give the empty
candidate list, and the pipeline stops after the search step. -/
theorem C3_witness :
    answerQuestionT failServices gEmpty tmplStd "q" =
      (.ok NOT_FOUND_MSG, [.genHypo, .embedSearch]) :=
  C3_empty_retrieval_short_circuit failServices gEmpty tmplStd "q" rfl

/-- C4 (counterexample): the re-rank response `"0"` parses to the 0-based
index `-1`; the claim's `[0, candidate_count)` filter would drop it and select
nothing, but the code keeps it (`if i < len(docs)` has no lower bound) and
`docs[-1]` selects the LAST candidate. -/
theorem C4_counterexample :
    parseIndices "0" = .ok [-1] ∧
    specInRangeIndices docsTwo.length [-1] = [] ∧
    rerankDocuments (okServices docsTwo "0") docsTwo "q" = [mkDoc 1] :=
  ⟨rfl, rfl, rfl⟩

/-- C5 (counterexample): on the response `"note: 3, 1, 1, 9"` the parser is
`int(i.strip())` over comma-split segments, so the segment `"note: 3"` raises
`ValueError`; the selection is the naive first `RERANK_TOP_N = 3` candidates,
not the documents at 0-based indices `[2,0,0,8]`. -/
theorem C5_counterexample :
    parseIndices "note: 3, 1, 1, 9" = .error .valueError ∧
    rerankDocuments (okServices docsTen "note: 3, 1, 1, 9") docsTen "q" =
      [mkDoc 0, mkDoc 1, mkDoc 2] ∧
    ([mkDoc 0, mkDoc 1, mkDoc 2] : List Doc) ≠
      [mkDoc 2, mkDoc 0, mkDoc 0, mkDoc 8] :=
  ⟨rfl, rfl, by decide⟩

/-- C5 (amended): given 10 candidates and the re-rank response
`"note: 3, 1, 1, 9"`, parsing fails at the non-numeric segment `"note: 3"`
and re-ranking returns exactly the first `RERANK_TOP_N` candidates,
unmodified and in order. -/
theorem C5_note_response_falls_back :
    rerankDocuments (okServices docsTen "note: 3, 1, 1, 9") docsTen "q" =
      docsTen.take RERANK_TOP_N := rfl

/-- C7 (counterexample): with 4 candidates and the response `"1,2,3,4"` the
selection keeps all 4 documents — the success path never truncates to
`RERANK_TOP_N = 3`. -/
theorem C7_counterexample :
    (rerankDocuments (okServices docsFour "1,2,3,4") docsFour "q").length = 4 ∧
    RERANK_TOP_N = 3 ∧
    ¬((rerankDocuments (okServices docsFour "1,2,3,4") docsFour "q").length ≤
        RERANK_TOP_N) :=
  ⟨rfl, rfl, by decide⟩

/-- C10 (counterexample): in a node set holding two distinct nodes with the
same text, `find_neighbors` resolves the text to the first matching node, so
for the edge `(enA2, enB)` — whose endpoints are all in the node set — the
lookup `find_neighbors("a")` returns the adjacency of `enA1` and does not
contain `enB`. -/
theorem C10_counterexample :
    (enA2, enB) ∈ kgBad.edges ∧
    (∀ e ∈ kgBad.edges, e.1 ∈ kgBad.nodes ∧ e.2 ∈ kgBad.nodes) ∧
    enB ∉ kgBad.findNeighbors enA2.text :=
  ⟨by decide, by decide, by decide⟩

/-- C1 (amended): for every question and every behaviour of the external
services, `answer_question` returns a string and never raises PROVIDED every
document list the vector search can return carries a `source` metadata key in
each document; without that proviso the uncaught `doc['metadata']['source']`
lookup of context assembly raises `KeyError` to the caller (see the
counterexample). -/
theorem C1_answer_question_total_with_source (s : Services) (g : Graph)
    (tmpl : Template) (q : String)
    (hmeta : ∀ x ds, s.vectorResult x = .ok ds →
      ∀ d ∈ ds, (d.metadata.find? (fun p => p.1 == "source")).isSome = true) :
    ∃ t, answerQuestion s g tmpl q = .ok t := by
  cases hinit : (searchVectorStore s (generateHypotheticalAnswer s q)).isEmpty with
  | true =>
    refine ⟨NOT_FOUND_MSG, ?_⟩
    unfold answerQuestion
    rw [answer_empty_search s g tmpl q (List.isEmpty_iff.mp hinit)]
  | false =>
    have hok : ∃ ds, s.vectorResult (generateHypotheticalAnswer s q) = .ok ds := by
      cases hv : s.vectorResult (generateHypotheticalAnswer s q) with
      | ok ds => exact ⟨ds, rfl⟩
      | error e =>
        have hz : searchVectorStore s (generateHypotheticalAnswer s q) = [] := by
          unfold searchVectorStore; rw [hv]
        rw [hz] at hinit; cases hinit
    obtain ⟨ds, hv⟩ := hok
    have hsv : searchVectorStore s (generateHypotheticalAnswer s q) = ds := by
      unfold searchVectorStore; rw [hv]
    rw [hsv] at hinit
    have hrelsrc : ∀ d ∈ rerankDocuments s ds q,
        (d.metadata.find? (fun p => p.1 == "source")).isSome = true :=
      fun d hd => hmeta _ ds hv d (rerankDocuments_mem s ds q d hd)
    obtain ⟨vc, hvc⟩ := vcFold_ok_of_source hrelsrc ""
    have hbvc : buildVectorContext (rerankDocuments s ds q) = .ok vc := hvc
    simp only [answerQuestion, answerQuestionT, hsv, hinit]
    cases hrel : (rerankDocuments s ds q).isEmpty with
    | true => exact ⟨NO_PRECISE_MSG, by simp [hrel]⟩
    | false =>
      simp only [hrel, Bool.false_eq_true, if_false, hbvc]
      cases hfr : s.finalResp
          (formatTemplate tmpl vc
            (searchKnowledgeGraph g (rerankDocuments s ds q)) q) with
      | ok t => exact ⟨t, by simp [hfr]⟩
      | error e => exact ⟨GEN_ERROR_MSG, by simp [hfr]⟩

/-- Witness for C1: with services whose retrieved documents all carry a
`source` key, `answer_question` returns a string. -/
theorem C1_witness :
    ∃ t, answerQuestion (okServices docsTwo "1") gEmpty tmplStd "q" = .ok t :=
  C1_answer_question_total_with_source (okServices docsTwo "1") gEmpty tmplStd
    "q" (fun x ds h => by cases h; decide)

/-- C2: if every external call (hypothetical-answer generation, the
embedding+vector-search block, re-ranking, final generation) raises,
`answer_question` still returns the non-empty "not found" message and never
raises. -/
theorem C2_all_fail_nonempty (s : Services) (g : Graph) (tmpl : Template)
    (q : String)
    (h1 : ∀ x, isErr (s.hypoResp x) = true)
    (h2 : ∀ x, isErr (s.vectorResult x) = true)
    (h3 : ∀ x, isErr (s.rerankResp x) = true)
    (h4 : ∀ x, isErr (s.finalResp x) = true) :
    answerQuestion s g tmpl q = .ok NOT_FOUND_MSG ∧ NOT_FOUND_MSG ≠ "" := by
  refine ⟨?_, by decide⟩
  unfold answerQuestion
  rw [answer_empty_search s g tmpl q (searchVectorStore_of_isErr s _ (h2 _))]

/-- Witness for C2: with all-failing services the pipeline returns the fixed
non-empty "not found" message. -/
theorem C2_witness :
    answerQuestion failServices gEmpty tmplStd "q" = .ok NOT_FOUND_MSG ∧
      NOT_FOUND_MSG ≠ "" :=
  C2_all_fail_nonempty failServices gEmpty tmplStd "q"
    (fun _ => rfl) (fun _ => rfl) (fun _ => rfl) (fun _ => rfl)

/-- C4 (amended): indices at or above `candidate_count` are dropped and every
selected document is an element of the candidate list — one document per
surviving parsed index — but indices below 0 are NOT dropped: a parsed value
less than 1 becomes a negative index that selects from the end of the list
(Python wrap-around; a value below `1 - candidate_count` raises `IndexError`
inside the `try` and triggers the naive first-`RERANK_TOP_N` fallback). -/
theorem C4_rerank_selection_from_candidates (s : Services) (docs : List Doc)
    (q : String) :
    (∀ d ∈ rerankDocuments s docs q, d ∈ docs) ∧
    (∀ idxs sel, selectDocs docs idxs = .ok sel →
      sel.length = (idxs.filter (fun i => i < (docs.length : Int))).length) :=
  ⟨rerankDocuments_mem s docs q, fun _ _ h => mapME_ok_length h⟩

/-- Witness for C4: the document selected through the negative index `-1`
(re-rank response `"0"` on two candidates) is an element of the candidate
list. -/
theorem C4_witness : mkDoc 1 ∈ docsTwo :=
  (C4_rerank_selection_from_candidates (okServices docsTwo "0") docsTwo "q").1
    (mkDoc 1) (by decide)

/-- C6: for a non-empty candidate list, re-ranking never raises — on any
exception in the try block (generation call, index parsing, document
selection), and in particular whenever the response text contains no decimal
digit at all, it returns exactly the first `RERANK_TOP_N` candidates of the
input, unchanged and in order (`docs[:RERANK_TOP_N]`). -/
theorem C6_rerank_never_raises_fallback (s : Services) (docs : List Doc)
    (q : String) (hne : docs ≠ []) :
    (∀ e, rerankResultE s docs q = .error e →
        rerankDocuments s docs q = docs.take RERANK_TOP_N) ∧
    (∀ t, s.rerankResp (rerankPrompt docs q) = .ok t →
        (∀ c ∈ t.data, c.isDigit = false) →
        rerankDocuments s docs q = docs.take RERANK_TOP_N) := by
  have hemp : docs.isEmpty = false := by
    cases docs with
    | nil => exact absurd rfl hne
    | cons d ds => rfl
  have herrcase : ∀ e, rerankResultE s docs q = .error e →
      rerankDocuments s docs q = docs.take RERANK_TOP_N := by
    intro e he
    simp [rerankDocuments, hemp, he]
  refine ⟨herrcase, ?_⟩
  intro t ht hnodigit
  have hres : rerankResultE s docs q = .error .valueError := by
    unfold rerankResultE
    rw [ht]
    dsimp only
    rw [parseIndices_noDigit hnodigit]
  exact herrcase _ hres

/-- Witness for C6: the digit-free response "I cannot determine relevance"
makes re-ranking return the first `RERANK_TOP_N` candidates unchanged. -/
theorem C6_witness :
    rerankDocuments (okServices docsTwo "I cannot determine relevance")
        docsTwo "q" = docsTwo.take RERANK_TOP_N :=
  (C6_rerank_never_raises_fallback
      (okServices docsTwo "I cannot determine relevance") docsTwo "q"
      (by decide)).2 "I cannot determine relevance" rfl (by decide)

/-- C7 (amended): the selection produced by re-ranking is not truncated to
`RERANK_TOP_N` on the parse-success path; its length is only bounded by the
number of comma-separated segments of the response text (one document per
surviving index), while the fallback path returns at most `RERANK_TOP_N`
documents. -/
theorem C7_rerank_length_bound (s : Services) (docs : List Doc) (q : String) :
    (∀ t, s.rerankResp (rerankPrompt docs q) = .ok t →
        (rerankDocuments s docs q).length ≤
          max (pySplitComma t.data).length RERANK_TOP_N) ∧
    (∀ e, s.rerankResp (rerankPrompt docs q) = .error e →
        (rerankDocuments s docs q).length ≤ RERANK_TOP_N) := by
  constructor
  · intro t ht
    unfold rerankDocuments
    split
    · simp
    · split
      · next r hr =>
        unfold rerankResultE at hr
        simp only [ht] at hr
        cases hidx : parseIndices t with
        | error e => simp only [hidx] at hr; cases hr
        | ok idxs =>
          simp only [hidx] at hr
          have hlen : r.length =
              (idxs.filter (fun i => i < (docs.length : Int))).length :=
            mapME_ok_length hr
          have h1 : r.length ≤ idxs.length := by
            rw [hlen]; exact List.length_filter_le _ _
          have h2 : idxs.length = (pySplitComma t.data).length :=
            mapME_ok_length hidx
          exact le_max_of_le_left (h2 ▸ h1)
      · exact le_max_of_le_right (by
          simpa using List.length_take_le RERANK_TOP_N docs)
  · intro e he
    have hres : rerankResultE s docs q = .error e := by
      unfold rerankResultE; rw [he]
    unfold rerankDocuments
    split
    · simp
    · simp only [hres]
      simpa using List.length_take_le RERANK_TOP_N docs

/-- Witness for C7: the 4-document selection of the counterexample scenario
is within the amended bound (4 comma-separated segments). -/
theorem C7_witness :
    (rerankDocuments (okServices docsFour "1,2,3,4") docsFour "q").length ≤
      max (pySplitComma ("1,2,3,4".data)).length RERANK_TOP_N :=
  (C7_rerank_length_bound (okServices docsFour "1,2,3,4") docsFour "q").1
    "1,2,3,4" rfl

/-- The graph-context accumulator never shrinks. -/
theorem foldl_nodeLine_length_le (g : Graph) :
    ∀ (l : List String) (acc : String),
      acc.length ≤ (l.foldl (fun a n => a ++ nodeLine g n) acc).length := by
  intro l
  induction l with
  | nil => intro acc; exact le_refl _
  | cons n ns ih =>
    intro acc
    calc acc.length ≤ (acc ++ nodeLine g n).length := by
          simp [String.length_append]
      _ ≤ _ := ih _

/-- Every summary line is a non-empty string. -/
theorem nodeLine_length_pos (g : Graph) (n : String) :
    0 < (nodeLine g n).length := by
  unfold nodeLine
  simp only [String.length_append]
  have h13 : 0 < "- For topic \x27".length := by decide
  omega

/-- The graph-context section is never the empty string: it is either the
fixed placeholder or at least one non-empty line. -/
theorem searchKnowledgeGraph_ne_empty (g : Graph) (docs : List Doc) :
    searchKnowledgeGraph g docs ≠ "" := by
  unfold searchKnowledgeGraph
  cases hf : foundNodes g docs with
  | nil => simp
  | cons n ns =>
    simp only [List.isEmpty_cons, Bool.false_eq_true, if_false, List.foldl_cons]
    apply ne_empty_of_length_pos
    calc 0 < (nodeLine g n).length := nodeLine_length_pos g n
      _ = ("" ++ nodeLine g n).length := by simp [String.length_append]
      _ ≤ _ := foldl_nodeLine_length_le g ns ("" ++ nodeLine g n)

/-- With no matched node the graph context is the fixed placeholder. -/
theorem searchKnowledgeGraph_of_no_match (g : Graph) (rd : List Doc)
    (hf : foundNodes g rd = []) :
    searchKnowledgeGraph g rd = "No additional context found." := by
  simp [searchKnowledgeGraph, hf]

/-- C8 (counterexample): the claim fails for the empty question — a query
`""` can reach context assembly, and then the `user_question` placeholder is
substituted with the empty string. -/
theorem C8_counterexample : ¬ contextCompletenessClaim := by
  intro h
  exact (h (okServices docsTwo "1") gEmpty ""
    "Source: src0\nContent: text0\n\n" (by decide) rfl).2.2 rfl

/-- C8 (amended): on every invocation that reaches context assembly with a
non-empty question, the final prompt is the template with all three
placeholders substituted — the document context and graph context are always
non-empty strings, and the graph context degrades to the exact placeholder
`"No additional context found."` when no entity matches; the question
substitution is the question itself, so it is non-empty exactly when the
question is (the original claim fails for the empty question, see the
counterexample). -/
theorem C8_context_completeness (s : Services) (g : Graph) (tmpl : Template)
    (q : String) (vc : String)
    (hne : relevantDocsOf s q ≠ []) (hq : q ≠ "")
    (hvc : buildVectorContext (relevantDocsOf s q) = .ok vc) :
    finalPromptOf s g tmpl q =
      .ok (formatTemplate tmpl vc (searchKnowledgeGraph g (relevantDocsOf s q)) q) ∧
    answerQuestion s g tmpl q =
      finalStep s
        (formatTemplate tmpl vc (searchKnowledgeGraph g (relevantDocsOf s q)) q) ∧
    vc ≠ "" ∧ q ≠ "" ∧
    searchKnowledgeGraph g (relevantDocsOf s q) ≠ "" ∧
    (foundNodes g (relevantDocsOf s q) = [] →
      searchKnowledgeGraph g (relevantDocsOf s q) = "No additional context found.") := by
  have h1 : finalPromptOf s g tmpl q =
      .ok (formatTemplate tmpl vc (searchKnowledgeGraph g (relevantDocsOf s q)) q) := by
    unfold finalPromptOf
    rw [hvc]
  have h3 : vc ≠ "" := by
    have hlt := (vcFold_ok_length hvc).2 hne
    have h0 : ("" : String).length = 0 := rfl
    rw [h0] at hlt
    exact ne_empty_of_length_pos hlt
  have h2 : answerQuestion s g tmpl q =
      finalStep s
        (formatTemplate tmpl vc (searchKnowledgeGraph g (relevantDocsOf s q)) q) := by
    cases hinit : (searchVectorStore s (generateHypotheticalAnswer s q)).isEmpty with
    | true =>
      exact absurd (by unfold relevantDocsOf; simp [hinit]) hne
    | false =>
      have hrel : relevantDocsOf s q =
          rerankDocuments s (searchVectorStore s (generateHypotheticalAnswer s q)) q := by
        unfold relevantDocsOf
        simp [hinit]
      rw [hrel] at hvc hne ⊢
      have hrelE :
          (rerankDocuments s (searchVectorStore s (generateHypotheticalAnswer s q)) q).isEmpty
            = false := by
        simp_all
      simp only [answerQuestion, answerQuestionT, hinit, Bool.false_eq_true,
        if_false, hrelE, hvc, finalStep]
      cases hfr : s.finalResp
          (formatTemplate tmpl vc
            (searchKnowledgeGraph g
              (rerankDocuments s
                (searchVectorStore s (generateHypotheticalAnswer s q)) q)) q) with
      | ok t => simp [hfr]
      | error e => simp [hfr]
  exact ⟨h1, h2, h3, hq, searchKnowledgeGraph_ne_empty g _,
    searchKnowledgeGraph_of_no_match g _⟩

/-- Witness for C8: a concrete run with a non-empty question reaching context
assembly has the placeholder graph context and a non-empty document context. -/
theorem C8_witness :
    searchKnowledgeGraph gEmpty (relevantDocsOf (okServices docsTwo "1") "hi") ≠ "" :=
  (C8_context_completeness (okServices docsTwo "1") gEmpty tmplStd "hi"
      "Source: src0\nContent: text0\n\n" (by decide) (by decide) rfl).2.2.2.2.1

/-- Elements already accumulated stay in the adjacency fold. -/
theorem adjacency_foldl_mono (n : EntityNode) :
    ∀ (l : List (EntityNode × EntityNode)) (acc : List EntityNode)
      (x : EntityNode), x ∈ acc →
      x ∈ l.foldl (fun acc e =>
        acc ++ (if e.1 == n then [e.2] else []) ++
          (if e.2 == n then [e.1] else [])) acc := by
  intro l
  induction l with
  | nil => intro acc x hx; exact hx
  | cons f fs ih =>
    intro acc x hx
    rw [List.foldl_cons]
    exact ih _ x (List.mem_append_left _ (List.mem_append_left _ hx))

/-- Each edge contributes both of its endpoints to the adjacency fold. -/
theorem adjacency_foldl_mem (n : EntityNode) :
    ∀ (l : List (EntityNode × EntityNode)) (acc : List EntityNode)
      (e : EntityNode × EntityNode), e ∈ l →
      (e.1 = n → e.2 ∈ l.foldl (fun acc e =>
        acc ++ (if e.1 == n then [e.2] else []) ++
          (if e.2 == n then [e.1] else [])) acc) ∧
      (e.2 = n → e.1 ∈ l.foldl (fun acc e =>
        acc ++ (if e.1 == n then [e.2] else []) ++
          (if e.2 == n then [e.1] else [])) acc) := by
  intro l
  induction l with
  | nil => intro acc e he; cases he
  | cons f fs ih =>
    intro acc e he
    rw [List.foldl_cons]
    rcases List.mem_cons.mp he with rfl | hmem
    · constructor
      · intro h1
        exact adjacency_foldl_mono n fs _ _
          (List.mem_append_left _ (List.mem_append_right _ (by simp [h1])))
      · intro h2
        exact adjacency_foldl_mono n fs _ _
          (List.mem_append_right _ (by simp [h2]))
    · exact ih _ e hmem

/-- C10 (amended): when all edge endpoints belong to the node set AND node
texts are pairwise distinguishing (two nodes with equal text are equal),
adjacency is symmetric through `find_neighbors` — for every edge `(a, b)`,
`find_neighbors(a.text)` contains `b` and `find_neighbors(b.text)` contains
`a` — and `find_neighbors` returns the empty set for any text matching no
node. Without the text-injectivity proviso the symmetry claim fails (see the
counterexample: `find_neighbors` resolves a text to the FIRST node carrying
it). -/
theorem C10_adjacency_symmetric (kg : KnowledgeGraph)
    (hwf : ∀ e ∈ kg.edges, e.1 ∈ kg.nodes ∧ e.2 ∈ kg.nodes)
    (hinj : ∀ m ∈ kg.nodes, ∀ n ∈ kg.nodes, m.text = n.text → m = n) :
    (∀ e ∈ kg.edges,
      e.2 ∈ kg.findNeighbors e.1.text ∧ e.1 ∈ kg.findNeighbors e.2.text) ∧
    (∀ t, (∀ n ∈ kg.nodes, n.text ≠ t) → kg.findNeighbors t = []) := by
  have hlook : ∀ a ∈ kg.nodes, kg.findNeighbors a.text = kg.adjacency a := by
    intro a ha
    unfold KnowledgeGraph.findNeighbors
    cases hfind : kg.nodes.find? (fun n => n.text == a.text) with
    | none =>
      have := List.find?_eq_none.mp hfind a ha
      simp at this
    | some target =>
      have htmem : target ∈ kg.nodes := List.mem_of_find?_eq_some hfind
      have htp : target.text = a.text := by
        have := List.find?_some hfind
        simpa using this
      rw [hinj target htmem a ha htp]
  have hadj : ∀ a ∈ kg.nodes, kg.adjacency a =
      kg.edges.foldl (fun acc e =>
        acc ++ (if e.1 == a then [e.2] else []) ++
          (if e.2 == a then [e.1] else [])) [] := by
    intro a ha
    unfold KnowledgeGraph.adjacency
    rw [if_pos (List.elem_eq_true_of_mem ha)]
  constructor
  · intro e he
    obtain ⟨h1, h2⟩ := hwf e he
    constructor
    · rw [hlook e.1 h1, hadj e.1 h1]
      exact (adjacency_foldl_mem e.1 kg.edges [] e he).1 rfl
    · rw [hlook e.2 h2, hadj e.2 h2]
      exact (adjacency_foldl_mem e.2 kg.edges [] e he).2 rfl
  · intro t hforall
    unfold KnowledgeGraph.findNeighbors
    have hnone : kg.nodes.find? (fun n => n.text == t) = none :=
      List.find?_eq_none.mpr (fun x hx => by simp [hforall x hx])
    rw [hnone]

/-- Witness for C10: in a well-formed, text-injective graph with the single
edge `(enA1, enB)`, the neighbor lookup by `enA1`'s text finds `enB`. -/
theorem C10_witness : enB ∈ kgGood.findNeighbors "a" :=
  ((C10_adjacency_symmetric kgGood (by decide) (by decide)).1
    (enA1, enB) (by decide)).1

/-- Newline counting distributes over string append. -/
theorem newlineCount_append (a b : String) :
    newlineCount (a ++ b) = newlineCount a + newlineCount b := by
  unfold newlineCount
  rw [String.data_append, List.countP_append]

/-- A string without a newline character has newline count zero. -/
theorem newlineCount_zero_of_contains_false {s : String}
    (h : s.data.contains '\n' = false) : newlineCount s = 0 := by
  unfold newlineCount
  rw [List.countP_eq_zero]
  intro a ha hbeq
  have haeq : a = '\n' := by simpa using hbeq
  have hnl : '\n' ∉ s.data := by simp_all
  exact hnl (haeq ▸ ha)

/-- Joining newline-free items with `', '` yields a newline-free string. -/
theorem newlineCount_joinCommaSpace :
    ∀ {items : List String}, (∀ x ∈ items, newlineCount x = 0) →
      newlineCount (joinCommaSpace items) = 0 := by
  intro items
  induction items with
  | nil => intro _; rfl
  | cons x xs ih =>
    intro h
    cases xs with
    | nil => exact h x (List.mem_cons_self _ _)
    | cons y ys =>
      have hx : joinCommaSpace (x :: y :: ys) =
          x ++ ", " ++ joinCommaSpace (y :: ys) := rfl
      rw [hx, newlineCount_append, newlineCount_append,
        h x (List.mem_cons_self _ _),
        ih (fun z hz => h z (List.mem_cons_of_mem x hz))]
      rfl

/-- Every neighbor is the endpoint of some edge. -/
theorem neighborsOf_mem_endpoints {g : Graph} {u v : String}
    (h : v ∈ g.neighborsOf u) : ∃ e ∈ g.edges, v = e.1 ∨ v = e.2 := by
  unfold Graph.neighborsOf at h
  obtain ⟨e, he, hfe⟩ := List.mem_filterMap.mp h
  by_cases h1 : (e.1 == u) = true
  · rw [if_pos h1] at hfe
    exact ⟨e, he, Or.inr (Option.some.inj hfe).symm⟩
  · rw [if_neg h1] at hfe
    by_cases h2 : (e.2 == u) = true
    · rw [if_pos h2] at hfe
      exact ⟨e, he, Or.inl (Option.some.inj hfe).symm⟩
    · rw [if_neg h2] at hfe
      cases hfe

/-- Everything accumulated during one BFS layer either was already in the
accumulator or is a neighbor of a frontier node. -/
theorem foldl_neighbors_mem {g : Graph} (visited : List String) :
    ∀ (fr : List String) (acc : List String) (x : String),
      x ∈ fr.foldl (fun acc u =>
        acc ++ (g.neighborsOf u).filter
          (fun v => !(visited.contains v || acc.contains v))) acc →
      x ∈ acc ∨ ∃ u ∈ fr, x ∈ g.neighborsOf u := by
  intro fr
  induction fr with
  | nil => intro acc x hx; exact Or.inl hx
  | cons f fs ih =>
    intro acc x hx
    rw [List.foldl_cons] at hx
    rcases ih _ x hx with h1 | ⟨u, hu, hmemu⟩
    · rcases List.mem_append.mp h1 with ha | hf
      · exact Or.inl ha
      · exact Or.inr ⟨f, List.mem_cons_self _ _, (List.mem_filter.mp hf).1⟩
    · exact Or.inr ⟨u, List.mem_cons_of_mem f hu, hmemu⟩

/-- Every node discovered by the bounded BFS is the endpoint of some edge. -/
theorem bfsExpand_mem_endpoints {g : Graph} :
    ∀ (d : Nat) (frontier visited : List String) (x : String),
      x ∈ bfsExpand g d frontier visited →
      ∃ e ∈ g.edges, x = e.1 ∨ x = e.2 := by
  intro d
  induction d with
  | zero => intro fr v x hx; cases hx
  | succ d ih =>
    intro fr visited x hx
    unfold bfsExpand at hx
    rcases List.mem_append.mp hx with h1 | h2
    · rcases foldl_neighbors_mem visited fr [] x h1 with ha | ⟨u, _, hmemu⟩
      · cases ha
      · exact neighborsOf_mem_endpoints hmemu
    · exact ih _ _ x h2

/-- Every related item reported for a source node is the endpoint of some
edge. -/
theorem bfsRelated_mem_endpoints {g : Graph} {src x : String} {d : Nat}
    (h : x ∈ bfsRelated g src d) : ∃ e ∈ g.edges, x = e.1 ∨ x = e.2 :=
  bfsExpand_mem_endpoints d [src] [src] x h

/-- A node whose only neighbors (if any) are itself reports no related
items within the configured search depth. -/
theorem bfsRelated_isolated {g : Graph} {n : String}
    (h : ((g.neighborsOf n).filter (fun v => !(v == n))).isEmpty = true) :
    bfsRelated g n GRAPH_SEARCH_DEPTH = [] := by
  have hnil : (g.neighborsOf n).filter (fun v => !(v == n)) = [] :=
    List.isEmpty_iff.mp h
  have hstep : (g.neighborsOf n).filter
      (fun v => !(List.contains [n] v || List.contains ([] : List String) v)) = [] := by
    have hcong : (g.neighborsOf n).filter
        (fun v => !(List.contains [n] v || List.contains ([] : List String) v)) =
        (g.neighborsOf n).filter (fun v => !(v == n)) :=
      List.filter_congr (fun v _ => by by_cases hv : v = n <;> simp [hv])
    rw [hcong, hnil]
  unfold bfsRelated GRAPH_SEARCH_DEPTH
  unfold bfsExpand
  rw [List.foldl_cons, List.foldl_nil, List.nil_append, hstep]
  rfl

/-- A line for a newline-free node over newline-free related items contains
exactly one newline. -/
theorem newlineCount_nodeLine {g : Graph} {n : String}
    (hn : newlineCount n = 0)
    (hrel : ∀ x ∈ bfsRelated g n GRAPH_SEARCH_DEPTH, newlineCount x = 0) :
    newlineCount (nodeLine g n) = 1 := by
  show newlineCount ("- For topic \x27" ++ n ++ "\x27, related concepts are: " ++
    (if (bfsRelated g n GRAPH_SEARCH_DEPTH).isEmpty then "None"
      else joinCommaSpace (bfsRelated g n GRAPH_SEARCH_DEPTH)) ++ "\n") = 1
  rw [newlineCount_append, newlineCount_append, newlineCount_append,
    newlineCount_append, hn]
  have hIf : newlineCount
      (if (bfsRelated g n GRAPH_SEARCH_DEPTH).isEmpty then "None"
        else joinCommaSpace (bfsRelated g n GRAPH_SEARCH_DEPTH)) = 0 := by
    split
    · rfl
    · exact newlineCount_joinCommaSpace hrel
  rw [hIf]
  rfl

/-- Newline count of the accumulated graph context: one per summary line. -/
theorem newlineCount_foldl_lines (g : Graph) :
    ∀ (l : List String) (acc : String),
      (∀ n ∈ l, newlineCount (nodeLine g n) = 1) →
      newlineCount (l.foldl (fun a n => a ++ nodeLine g n) acc) =
        newlineCount acc + l.length := by
  intro l
  induction l with
  | nil => intro acc _; simp
  | cons n ns ih =>
    intro acc h
    rw [List.foldl_cons, ih _ (fun x hx => h x (List.mem_cons_of_mem n hx)),
      newlineCount_append, h n (List.mem_cons_self _ _)]
    simp only [List.length_cons]
    omega

/-- C9: for every graph whose labels are newline-free and every retrieved
document set with at least one matched node, the graph-context summary
contains exactly one line per entity node whose label occurs
(case-insensitively, as a substring) in some retrieved text; a matched node
with no neighbor other than itself gets the exact line reporting `None`; and
on the spec's 2-node, 0-edge example with a document containing both labels
the summary is precisely the two `None` lines. -/
theorem C9_graph_context_lines (g : Graph) (docs : List Doc)
    (hn : ∀ n ∈ g.nodes, n.data.contains '\n' = false)
    (he : ∀ e ∈ g.edges,
      e.1.data.contains '\n' = false ∧ e.2.data.contains '\n' = false)
    (hf : foundNodes g docs ≠ []) :
    newlineCount (searchKnowledgeGraph g docs) = (foundNodes g docs).length ∧
    (∀ n ∈ foundNodes g docs,
      ((g.neighborsOf n).filter (fun v => !(v == n))).isEmpty = true →
      nodeLine g n =
        "- For topic \x27" ++ n ++ "\x27, related concepts are: " ++ "None" ++ "\n") ∧
    searchKnowledgeGraph gTwoMinistries [docBothMinistries] =
      "- For topic \x27Ministry of Health\x27, related concepts are: None\n" ++
      "- For topic \x27Ministry of Science\x27, related concepts are: None\n" := by
  have hsub : ∀ n ∈ foundNodes g docs, n ∈ g.nodes := fun n hnn =>
    (List.mem_filter.mp hnn).1
  have hlines : ∀ n ∈ foundNodes g docs, newlineCount (nodeLine g n) = 1 := by
    intro n hnn
    apply newlineCount_nodeLine
    · exact newlineCount_zero_of_contains_false (hn n (hsub n hnn))
    · intro x hx
      obtain ⟨e, hee, hx12⟩ := bfsRelated_mem_endpoints hx
      rcases hx12 with rfl | rfl
      · exact newlineCount_zero_of_contains_false (he e hee).1
      · exact newlineCount_zero_of_contains_false (he e hee).2
  refine ⟨?_, ?_, by decide⟩
  · unfold searchKnowledgeGraph
    have hfe : (foundNodes g docs).isEmpty = false := by simp_all
    simp only [hfe, Bool.false_eq_true, if_false]
    rw [newlineCount_foldl_lines g _ "" hlines]
    have h0 : newlineCount "" = 0 := rfl
    rw [h0]
    exact Nat.zero_add _
  · intro n hnn hiso
    have hrel0 : bfsRelated g n GRAPH_SEARCH_DEPTH = [] := bfsRelated_isolated hiso
    unfold nodeLine
    rw [hrel0]
    rfl

/-- Witness for C9: on the 2-node, 0-edge example the summary has exactly one
line per matched node (two lines). -/
theorem C9_witness :
    newlineCount (searchKnowledgeGraph gTwoMinistries [docBothMinistries]) =
      (foundNodes gTwoMinistries [docBothMinistries]).length :=
  (C9_graph_context_lines gTwoMinistries [docBothMinistries]
    (by decide) (by decide) (by decide)).1

end Danesh
